import Mathlib

/-!
Shallow embedding of the Shadow Realm board-game turn engine
(`TurnControls`, `CharacterCreation`, `MainLobby` components).

The engine state lives in database records (`players`, `games`); the
component reads a snapshot of the active player (its `currentPlayer`
prop, refreshed only by `onGameUpdate` at `endTurn`) and issues database
writes.  We model the persisted record (`db`), the component snapshot
(`snap`), the game counters, and the sequence of writes each operation
performs.
-/

namespace ShadowRealm

/-- Board ring length: positions are computed mod 100 in `rollMovement`. -/
def boardSize : Nat := 100

/-- Gold granted when a movement roll passes the wrap point (tile 0). -/
def wrapBonus : Int := 200

/-- One die draw: `Math.floor(Math.random() * 6) + 1`.  The entropy source
supplies the floored value, which always lies in `{0, ..., 5}`. -/
def rollDice (entropy : Nat → Fin 6) (count : Nat) : List Nat :=
  (List.range count).map (fun i => (entropy i).val + 1)

/-- The action roll as drawn by `rollAction`: `rollDice(1)[0]`. -/
def actionRoll (entropy : Nat → Fin 6) : Nat :=
  (rollDice entropy 1).headD 0

/-- Tile categories used by the `applyTileEffects` switch. -/
inductive TileType
  | start
  | property
  | monster
  | treasure
  | event
deriving DecidableEq, Repr

/-- The pure `(healthChange, goldChange)` computation of `applyTileEffects`:
monster pays `50 + roll*5` on a roll of at least 15 and costs 15 health on a
roll of at most 8; treasure always pays `25 + roll*3`; event pays 30 on at
least 12 and costs 20 gold on at most 6; property and start change nothing. -/
def tileEffects : TileType → Nat → Int × Int
  | .monster, roll =>
      if 15 ≤ roll then (0, 50 + (roll : Int) * 5)
      else if roll ≤ 8 then (-15, 0)
      else (0, 0)
  | .treasure, roll => (0, 25 + (roll : Int) * 3)
  | .event, roll =>
      if 12 ≤ roll then (0, 30)
      else if roll ≤ 6 then (0, -20)
      else (0, 0)
  | .property, _ => (0, 0)
  | .start, _ => (0, 0)

/-- The per-player fields the engine mutates. -/
structure PlayerSt where
  position : Nat
  health : Int
  gold : Int
deriving DecidableEq, Repr

/-- The per-game fields the engine mutates. -/
structure GameSt where
  current_player : Nat
  current_turn : Nat
deriving DecidableEq, Repr

/-- Player record as created by `CharacterCreation`: position 0, health 100,
gold 1500. -/
def initPlayer : PlayerSt := { position := 0, health := 100, gold := 1500 }

/-- The player numbers of a roster of `n` registered players: each joining
player receives number `existing count + 1`, so numbers are `1, ..., n`. -/
def rosterNumbers (n : Nat) : List Nat :=
  (List.range n).map (· + 1)

/-- The database writes of `rollMovement`, reading the component snapshot
`snap`: position becomes `(snap.position + total) % 100`, and when
`snap.position + total >= 100` gold is overwritten with `snap.gold + 200`. -/
def rollMovementWrites (snap : PlayerSt) (d1 d2 : Nat) (db : PlayerSt) : PlayerSt :=
  let total := d1 + d2
  let newPosition := (snap.position + total) % boardSize
  let db1 := { db with position := newPosition }
  if boardSize ≤ snap.position + total then
    { db1 with gold := snap.gold + wrapBonus }
  else db1

/-- The database writes of `applyTileEffects`, reading the component snapshot
`snap`: when either delta is nonzero, health is overwritten with the clamped
`snap.health + healthChange` and gold with `max 0 (snap.gold + goldChange)`. -/
def applyTileEffectsWrites (snap : PlayerSt) (tile : TileType) (roll : Nat)
    (db : PlayerSt) : PlayerSt :=
  let healthChange := (tileEffects tile roll).1
  let goldChange := (tileEffects tile roll).2
  if healthChange ≠ 0 ∨ goldChange ≠ 0 then
    { db with
        health := max 0 (min 100 (snap.health + healthChange)),
        gold := max 0 (snap.gold + goldChange) }
  else db

/-- The game-record write of `endTurn`: `current_player` becomes
`(current_player % 4) + 1` and `current_turn` is incremented exactly when the
new current player equals 1. -/
def endTurnGame (g : GameSt) : GameSt :=
  let nextPlayer := g.current_player % 4 + 1
  let nextTurn := if nextPlayer = 1 then g.current_turn + 1 else g.current_turn
  { current_player := nextPlayer, current_turn := nextTurn }

/-- Session state: the persisted record of the active player (`db`), the
component snapshot of that record (`snap`, the `currentPlayer` prop), the
records of the other registered players (never written during this player
turn), and the game counters. -/
structure EngineSt where
  db : PlayerSt
  snap : PlayerSt
  others : List PlayerSt
  game : GameSt
deriving Repr

/-- An engine operation, with the entropy it consumes: each die entropy value
is the floored `Math.random() * 6` draw. -/
inductive Op
  | rollMovement (d1 d2 : Fin 6)
  | rollAction (tile : TileType) (u : Fin 6)
  | endTurn

/-- One engine operation as executed by `TurnControls`: reads go to the
snapshot, writes go to the database; `endTurn` triggers `onGameUpdate`,
which reloads the snapshot from the database. -/
def step (s : EngineSt) : Op → EngineSt
  | .rollMovement d1 d2 =>
      { s with db := rollMovementWrites s.snap (d1.val + 1) (d2.val + 1) s.db }
  | .rollAction tile u =>
      { s with db := applyTileEffectsWrites s.snap tile (u.val + 1) s.db }
  | .endTurn =>
      { s with game := endTurnGame s.game, snap := s.db }

/-- Run a sequence of engine operations. -/
def run (s : EngineSt) (ops : List Op) : EngineSt :=
  ops.foldl step s

/-- Session start: every registered player carries the fresh
`CharacterCreation` record, game at turn 1, player 1. -/
def initSession (n : Nat) : EngineSt :=
  { db := initPlayer
    snap := initPlayer
    others := List.replicate n initPlayer
    game := { current_player := 1, current_turn := 1 } }

/-- The clamped resource ranges. -/
def PlayerInv (p : PlayerSt) : Prop :=
  0 ≤ p.health ∧ p.health ≤ 100 ∧ 0 ≤ p.gold

/-- Every player record and the active snapshot stay in range. -/
def EngineInv (s : EngineSt) : Prop :=
  PlayerInv s.db ∧ PlayerInv s.snap ∧ ∀ p ∈ s.others, PlayerInv p

/-! The turn-phase machine of the `TurnControls` component, for the active
player: `actionPhase` distinguishes the movement phase from the action
phase, `rolling` and `processing` are the in-flight guards.  A button is
invocable when it is rendered and its handler guard passes: the movement
button is rendered only while `actionPhase` is false and returns early when
`rolling`; the action and end-turn buttons are rendered only while
`actionPhase` is true and return early when `processing`. -/

/-- Component flags of `TurnControls` for the active player. -/
structure UiState where
  actionPhase : Bool
  rolling : Bool
  processing : Bool
deriving DecidableEq, Repr

/-- The three operations reachable from the turn controls. -/
inductive UiOp
  | rollMovement
  | rollAction
  | endTurn
deriving DecidableEq, Repr

/-- Whether an operation can be invoked and will run its body. -/
def uiEnabled : UiOp → UiState → Bool
  | .rollMovement, s => !s.actionPhase && !s.rolling
  | .rollAction, s => s.actionPhase && !s.processing
  | .endTurn, s => s.actionPhase && !s.processing

/-- Component state after a completed invocation: `rollMovement` enters the
action phase and clears `rolling`; `rollAction` clears `processing` and
leaves `actionPhase` set; `endTurn` clears `actionPhase` and `processing`. -/
def uiStep : UiOp → UiState → UiState
  | .rollMovement, s => { s with actionPhase := true, rolling := false }
  | .rollAction, s => { s with processing := false }
  | .endTurn, s => { s with actionPhase := false, processing := false }

/-- Flags at the start of a player turn. -/
def turnStart : UiState :=
  { actionPhase := false, rolling := false, processing := false }

/-- Run a sequence of completed invocations. -/
def uiRun (s : UiState) (ops : List UiOp) : UiState :=
  ops.foldl (fun t op => uiStep op t) s

/-- A sequence of invocations each of which is enabled when reached. -/
def validSeq : UiState → List UiOp → Bool
  | _, [] => true
  | s, op :: rest => uiEnabled op s && validSeq (uiStep op s) rest

/-! Failure model for the awaited database calls inside an operation.  Each
call either succeeds and applies its write or throws; the `catch` block only
reports the error, so every write issued before the failing call stays
persisted. -/

/-- One awaited database call of an engine operation, as it affects the
modelled player fields (chat-message creation writes none of them). -/
inductive DbCall
  | updatePosition (newPos : Nat)
  | updateGold (newGold : Int)
  | chatCreate
deriving DecidableEq, Repr

/-- The write a database call performs on the player record. -/
def applyCall (db : PlayerSt) : DbCall → PlayerSt
  | .updatePosition p => { db with position := p }
  | .updateGold g => { db with gold := g }
  | .chatCreate => db

/-- Run the calls in order starting at call index `i`; the call with index
`failAt` throws before performing its write, and the state reached so far is
what remains persisted (`Except.error`). -/
def runCallsFrom (db : PlayerSt) (calls : List DbCall) (failAt : Option Nat)
    (i : Nat) : Except PlayerSt PlayerSt :=
  match calls with
  | [] => .ok db
  | c :: rest =>
      if failAt = some i then .error db
      else runCallsFrom (applyCall db c) rest failAt (i + 1)

/-- The ordered awaited calls of `rollMovement`: position update, movement
chat message, then on a wrap the gold update and its chat message. -/
def rollMovementCalls (snap : PlayerSt) (d1 d2 : Nat) : List DbCall :=
  let total := d1 + d2
  let newPosition := (snap.position + total) % boardSize
  [DbCall.updatePosition newPosition, DbCall.chatCreate] ++
    (if boardSize ≤ snap.position + total then
      [DbCall.updateGold (snap.gold + wrapBonus), DbCall.chatCreate]
    else [])

/-- `rollMovement` with a possible failure at call index `failAt`. -/
def rollMovementFallible (snap db : PlayerSt) (d1 d2 : Nat)
    (failAt : Option Nat) : Except PlayerSt PlayerSt :=
  runCallsFrom db (rollMovementCalls snap d1 d2) failAt 0

/-! Theorems -/

/-- C1: the action roll drawn by `rollAction` is `rollDice(1)[0]`, a single
d6 draw: for every entropy source it lies in `[1,6]`, hence never exceeds 6
and in particular can never equal 20 — not a d20 draw over `[1,20]`. -/
theorem actionRoll_is_d6 :
    ∀ entropy : Nat → Fin 6,
      1 ≤ actionRoll entropy ∧ actionRoll entropy ≤ 6 ∧ actionRoll entropy ≠ 20 := by
  intro entropy
  have h : actionRoll entropy = (entropy 0).val + 1 := by
    simp [actionRoll, rollDice, List.range_succ]
  have hlt : (entropy 0).val < 6 := (entropy 0).isLt
  refine ⟨by omega, by omega, by omega⟩

/-- C6: the tile-effect computation is a deterministic function of the tile
type and the roll, with thresholds monster high 15 / low 8 and event high
12 / low 6; the cited table entries evaluate as claimed and property and
start tiles never change anything. -/
theorem tileEffects_policy :
    tileEffects .monster 18 = (0, 140) ∧
    tileEffects .monster 15 = (0, 125) ∧
    tileEffects .monster 14 = (0, 0) ∧
    tileEffects .monster 9 = (0, 0) ∧
    tileEffects .monster 8 = (-15, 0) ∧
    tileEffects .monster 5 = (-15, 0) ∧
    tileEffects .treasure 10 = (0, 55) ∧
    tileEffects .event 12 = (0, 30) ∧
    tileEffects .event 11 = (0, 0) ∧
    tileEffects .event 7 = (0, 0) ∧
    tileEffects .event 6 = (0, -20) ∧
    tileEffects .event 3 = (0, -20) ∧
    (∀ r : Nat, tileEffects .property r = (0, 0)) ∧
    (∀ r : Nat, tileEffects .start r = (0, 0)) := by
  refine ⟨by decide, by decide, by decide, by decide, by decide, by decide,
    by decide, by decide, by decide, by decide, by decide, by decide,
    fun r => rfl, fun r => rfl⟩

/-- C10: a turn consisting of only `rollMovement` followed by `endTurn` is a
valid invocation sequence — `endTurn` is enabled in the action phase without
any `rollAction` — and it completes the turn (the action phase is cleared),
so a completed turn may contain zero action rolls. -/
theorem turn_without_action_roll :
    validSeq turnStart [UiOp.rollMovement, UiOp.endTurn] = true ∧
    (uiRun turnStart [UiOp.rollMovement, UiOp.endTurn]).actionPhase = false ∧
    UiOp.rollAction ∉ [UiOp.rollMovement, UiOp.endTurn] := by
  decide

/-- C7 counterexample: after a movement roll and one completed action roll,
a second `rollAction` invocation is still enabled and the three-invocation
sequence is valid — the second action roll is not rejected, and in
particular does not fail with any `InvalidPhase` error (the code defines no
such error). -/
theorem second_rollAction_not_rejected :
    uiEnabled UiOp.rollAction (uiRun turnStart [UiOp.rollMovement, UiOp.rollAction]) = true ∧
    validSeq turnStart [UiOp.rollMovement, UiOp.rollAction, UiOp.rollAction] = true := by
  decide

/-- C7 amended: a completed `rollAction` leaves its own enabling condition
intact (the action phase persists and `processing` is cleared), so action
rolls may be repeated within a turn until `endTurn`. -/
theorem rollAction_repeatable (s : UiState)
    (h : uiEnabled UiOp.rollAction s = true) :
    uiEnabled UiOp.rollAction (uiStep UiOp.rollAction s) = true := by
  cases s
  simp_all [uiEnabled, uiStep]

/-- C7 amended, witness: the enabling condition holds in the plain action
phase state and is preserved by a completed action roll there. -/
theorem rollAction_repeatable_witness :
    uiEnabled UiOp.rollAction ⟨true, false, false⟩ = true ∧
    uiEnabled UiOp.rollAction (uiStep UiOp.rollAction ⟨true, false, false⟩) = true :=
  ⟨by decide, rollAction_repeatable ⟨true, false, false⟩ (by decide)⟩

/-- C2 counterexample: in a session with two registered players (numbers 1
and 2) and current player 2, `endTurn` sets `current_player` to 3, which is
not a registered player number. -/
theorem endTurn_leaves_roster :
    endTurnGame ⟨2, 5⟩ = ⟨3, 5⟩ ∧
    (2 : Nat) ∈ rosterNumbers 2 ∧
    (3 : Nat) ∉ rosterNumbers 2 := by
  decide

/-- C2 amended: `endTurn` always advances `current_player` to
`(current_player % 4) + 1`, cycling through the fixed set `{1,2,3,4}`
independently of the registered roster, and increments `current_turn`
exactly when the new current player equals 1; the result is a registered
player number whenever all four seats are filled. -/
theorem endTurn_mod_four (g : GameSt)
    (h : g.current_player ∈ rosterNumbers 4) :
    (endTurnGame g).current_player = g.current_player % 4 + 1 ∧
    (endTurnGame g).current_player ∈ rosterNumbers 4 ∧
    ((endTurnGame g).current_turn = g.current_turn + 1 ↔
      (endTurnGame g).current_player = 1) := by
  have h4 : g.current_player = 1 ∨ g.current_player = 2 ∨
      g.current_player = 3 ∨ g.current_player = 4 := by
    simpa [rosterNumbers, List.range_succ] using h
  rcases h4 with h1 | h1 | h1 | h1 <;>
    simp [endTurnGame, rosterNumbers, List.range_succ, h1]

/-- C2 amended, witness: with all four players registered and player 4
active, `endTurn` wraps to player 1 and increments the turn counter. -/
theorem endTurn_mod_four_witness :
    (4 : Nat) ∈ rosterNumbers 4 ∧
    ((endTurnGame ⟨4, 7⟩).current_player = 4 % 4 + 1 ∧
      (endTurnGame ⟨4, 7⟩).current_player ∈ rosterNumbers 4 ∧
      ((endTurnGame ⟨4, 7⟩).current_turn = 7 + 1 ↔
        (endTurnGame ⟨4, 7⟩).current_player = 1)) :=
  ⟨by decide, endTurn_mod_four ⟨4, 7⟩ (by decide)⟩

/-- C8 counterexample: starting from the fresh player record, a
`rollMovement` with dice 1 and 1 whose second awaited call (the
chat-message creation) throws reports failure while the position update is
already persisted: the resulting record differs from the initial one. -/
theorem rollMovement_partial_write :
    rollMovementFallible initPlayer initPlayer 1 1 (some 1)
      = .error { position := 2, health := 100, gold := 1500 } ∧
    ({ position := 2, health := 100, gold := 1500 } : PlayerSt) ≠ initPlayer :=
  ⟨rfl, by decide⟩

/-- C8 amended: `rollMovement` is not atomic — a failure leaves exactly the
writes issued before it persisted.  State is unchanged only when the very
first call (the position update) throws; a failure at the second call
leaves the new position persisted. -/
theorem rollMovement_failure_semantics (snap db : PlayerSt) (d1 d2 : Nat) :
    rollMovementFallible snap db d1 d2 (some 0) = .error db ∧
    rollMovementFallible snap db d1 d2 (some 1)
      = .error { db with position := (snap.position + (d1 + d2)) % boardSize } :=
  ⟨rfl, rfl⟩

/-- C3: for any session state whose snapshot position lies on the board,
`rollMovement` writes `newPosition = (position + d1 + d2) % boardSize` for
some dice values `d1, d2` each in `[1,6]`. -/
theorem rollMovement_newPosition (s : EngineSt) (d1 d2 : Fin 6)
    (h : s.snap.position < boardSize) :
    ∃ a b : Nat, 1 ≤ a ∧ a ≤ 6 ∧ 1 ≤ b ∧ b ≤ 6 ∧
      (step s (Op.rollMovement d1 d2)).db.position
        = (s.snap.position + a + b) % boardSize := by
  refine ⟨d1.val + 1, d2.val + 1, by omega, by omega, by omega, by omega, ?_⟩
  have h1 : s.snap.position + (d1.val + 1 + (d2.val + 1))
      = s.snap.position + (d1.val + 1) + (d2.val + 1) := by omega
  simp only [step, rollMovementWrites]
  split <;> simp [h1]

/-- C3, witness: at the session start (position 0) with both dice showing 1,
the written position is `(0 + 1 + 1) % 100`. -/
theorem rollMovement_newPosition_witness :
    (initSession 3).snap.position < boardSize ∧
    ∃ a b : Nat, 1 ≤ a ∧ a ≤ 6 ∧ 1 ≤ b ∧ b ≤ 6 ∧
      (step (initSession 3) (Op.rollMovement 0 0)).db.position
        = ((initSession 3).snap.position + a + b) % boardSize :=
  ⟨by decide, rollMovement_newPosition (initSession 3) 0 0 (by decide)⟩

/-- C4: `rollMovement` grants the wrap bonus exactly when the pre-roll
snapshot position plus the dice total reaches `boardSize`; on a qualifying
roll the persisted gold becomes the snapshot gold plus the single constant
bonus of 200, and otherwise gold is untouched. -/
theorem wrap_bonus_rule (s : EngineSt) (d1 d2 : Fin 6) :
    (step s (Op.rollMovement d1 d2)).db.gold
      = if boardSize ≤ s.snap.position + (d1.val + 1 + (d2.val + 1)) then
          s.snap.gold + wrapBonus
        else s.db.gold := by
  simp only [step, rollMovementWrites]
  split <;> simp

/-- Every single engine operation preserves the clamped resource ranges. -/
theorem engineInv_step (s : EngineSt) (h : EngineInv s) (op : Op) :
    EngineInv (step s op) := by
  obtain ⟨⟨hdb0, hdb1, hdb2⟩, ⟨hs0, hs1, hs2⟩, hoth⟩ := h
  cases op with
  | rollMovement d1 d2 =>
      refine ⟨?_, ⟨hs0, hs1, hs2⟩, hoth⟩
      simp only [step, rollMovementWrites]
      split
      · exact ⟨hdb0, hdb1, by simp [wrapBonus]; omega⟩
      · exact ⟨hdb0, hdb1, hdb2⟩
  | rollAction tile u =>
      refine ⟨?_, ⟨hs0, hs1, hs2⟩, hoth⟩
      simp only [step, applyTileEffectsWrites]
      split
      · refine ⟨le_max_left _ _, max_le (by norm_num) (min_le_left _ _),
          le_max_left _ _⟩
      · exact ⟨hdb0, hdb1, hdb2⟩
  | endTurn =>
      exact ⟨⟨hdb0, hdb1, hdb2⟩, ⟨hdb0, hdb1, hdb2⟩, hoth⟩

/-- The invariant is preserved along any operation sequence. -/
theorem engineInv_run (ops : List Op) (s : EngineSt) (h : EngineInv s) :
    EngineInv (run s ops) := by
  induction ops generalizing s with
  | nil => exact h
  | cons op rest ih => exact ih (step s op) (engineInv_step s h op)

/-- C5: in a session of any size started from the fresh character records,
every sequence of engine operations leaves the active player record, the
component snapshot, and every other registered player record with health in
`[0,100]` and gold at least 0. -/
theorem health_gold_invariant (n : Nat) (ops : List Op) :
    EngineInv (run (initSession n) ops) := by
  have hinit : PlayerInv initPlayer := by
    refine ⟨by norm_num [initPlayer], by norm_num [initPlayer], by norm_num [initPlayer]⟩
  refine engineInv_run ops (initSession n) ⟨hinit, hinit, ?_⟩
  intro p hp
  have := List.eq_of_mem_replicate hp
  subst this
  exact hinit

/-- C9: on a turn whose movement roll wraps (granting the 200-gold bonus)
and whose action roll produces a nonzero gold delta, the tile-effect write
is computed from the snapshot gold read before the bonus was persisted, so
the final stored gold equals the pre-movement gold plus the tile delta —
the wrap bonus is overwritten and lost. -/
theorem wrap_bonus_overwritten (s : EngineSt) (d1 d2 u : Fin 6) (tile : TileType)
    (hwrap : boardSize ≤ s.snap.position + (d1.val + 1 + (d2.val + 1)))
    (hgd : (tileEffects tile (u.val + 1)).2 ≠ 0)
    (hnn : 0 ≤ s.snap.gold + (tileEffects tile (u.val + 1)).2) :
    (run s [Op.rollMovement d1 d2, Op.rollAction tile u]).db.gold
      = s.snap.gold + (tileEffects tile (u.val + 1)).2 := by
  show (step (step s (Op.rollMovement d1 d2)) (Op.rollAction tile u)).db.gold = _
  simp only [step, applyTileEffectsWrites]
  rw [if_pos (Or.inr hgd)]
  exact max_eq_right hnn

/-- C9, witness: a player at position 95 with 1500 gold rolls 6 and 6
(wrapping, bonus granted), then rolls 4 on a treasure tile (gold delta 37):
the stored gold is 1537, not 1737 — the 200 bonus is gone. -/
theorem wrap_bonus_overwritten_witness :
    boardSize ≤ 95 + (5 + 1 + (5 + 1)) ∧
    (tileEffects TileType.treasure (3 + 1)).2 ≠ 0 ∧
    0 ≤ (1500 : Int) + (tileEffects TileType.treasure (3 + 1)).2 ∧
    (run ⟨⟨95, 100, 1500⟩, ⟨95, 100, 1500⟩, [], ⟨1, 1⟩⟩
        [Op.rollMovement 5 5, Op.rollAction TileType.treasure 3]).db.gold
      = 1500 + (tileEffects TileType.treasure (3 + 1)).2 :=
  ⟨by decide, by decide, by decide,
    wrap_bonus_overwritten ⟨⟨95, 100, 1500⟩, ⟨95, 100, 1500⟩, [], ⟨1, 1⟩⟩
      5 5 3 TileType.treasure (by decide) (by decide) (by decide)⟩

end ShadowRealm
